import Mathlib

/-!
# Verification of the bracket-parsing pipeline (`analyze.py`)

A shallow embedding of the bracket-text parsing pipeline of the repository:
`TeamResult.__init__`, `TeamResult.from_nfl_pieces`, `TeamResult.team_from_series`,
`TeamResult.dict_has_match_data`, `TeamResult.get_match_data`, `TeamResult.fix_seeding`,
`TeamResult.game_from_match`, `get_bracket_info`, `get_game_from_nfl_bracket`, and the
winner-first reordering of `get_game`.

Python strings are modelled as Lean `String`/`List Char`; Python `int` as `Int` (with
`Nat` for values produced by digit parsing); Python dictionaries keyed by `(round, index)`
as insertion-ordered association lists; exceptions (`AssertionError`, `KeyError`,
`ValueError`, `IndexError`) as `Except String`.  The regular expressions of the source
are compiled by hand into character-list functions; each such function is documented with
the regex it implements and follows the leftmost / greedy semantics of Python `re`.

The name-normalization functions of `university.py` (`normalize_team_name`,
`normalize_professional_name`) depend on JSON data files that are not part of the three
source files; the pipeline functions below are therefore parameterized by them
(`ntn`, `npn`) and every theorem holds for an arbitrary normalizer.  No claim settled here
depends on the behavior of those two functions.
-/

namespace Bracket

/-- Python `\s` / `str.strip()` whitespace: space, tab, newline, carriage return,
vertical tab, form feed. -/
def pyIsSpace (c : Char) : Bool :=
  c = ' ' || c = '\t' || c = '\n' || c = '\r' || c = '\x0b' || c = '\x0c'

/-- Numeric value of a list of ASCII digits (the effect of Python `int` on a digit
string). -/
def natOfDigits (l : List Char) : Nat :=
  l.foldl (fun n c => 10 * n + (c.toNat - 48)) 0

/-- Python `str.strip()`: remove whitespace from both ends. -/
def pyStrip (s : String) : String :=
  ⟨((s.data.dropWhile pyIsSpace).reverse.dropWhile pyIsSpace).reverse⟩

/-- Python `int(s)` on a string: optional surrounding whitespace, an optional sign,
then one or more digits; anything else raises `ValueError` (modelled as `none`). -/
def pyInt (s : String) : Option Int :=
  match (pyStrip s).data with
  | '-' :: ds => if ds ≠ [] && ds.all (·.isDigit) then some (-(natOfDigits ds : Int)) else none
  | '+' :: ds => if ds ≠ [] && ds.all (·.isDigit) then some (natOfDigits ds : Int) else none
  | ds => if ds ≠ [] && ds.all (·.isDigit) then some (natOfDigits ds : Int) else none

/-- Whether `pat` occurs as a contiguous substring of `l` (Python `pat in l` /
`re.search` of a literal). -/
def containsSub (pat : List Char) : List Char → Bool
  | [] => pat.isPrefixOf ([] : List Char)
  | l@(_ :: ls) => pat.isPrefixOf l || containsSub pat ls

/-- Python list indexing `l[i]`, including negative indices counting from the end;
out of range raises `IndexError`. -/
def pyListGet {α : Type} (l : List α) (i : Int) : Except String α :=
  let j : Int := if i < 0 then (l.length : Int) + i else i
  if h : 0 ≤ j ∧ j.toNat < l.length then .ok (l.get ⟨j.toNat, h.2⟩)
  else .error "IndexError: list index out of range"

/-! ## `TeamResult` (analyze.py lines 121-135) -/

/-- A team's result of a single game: seed, team name and score
(`TeamResult`, analyze.py line 121). -/
structure TeamResult where
  seed : Int
  team : String
  score : Int
  deriving DecidableEq, Repr, Inhabited

/-- `TeamResult.__init__` (analyze.py lines 123-129): strip the team string; if the seed
argument is `0` and the *raw* team string matches `re.match(r'\d+\s+\D', team)`, move the
leading number (unclamped) into the seed and keep the remainder after the first
whitespace run as the team.

The regex match on the raw string: a nonempty digit prefix, then a nonempty whitespace
run, then one further non-digit character; when the text after the whitespace run starts
with a digit (or the string ends there), a second whitespace character can serve as the
`\D`. -/
def teamResultInit (seed : Int) (team : String) (score : Int) : TeamResult :=
  let l := team.data
  let ds := l.takeWhile (·.isDigit)
  let r1 := l.drop ds.length
  let ws := r1.takeWhile pyIsSpace
  let r2 := r1.drop ws.length
  let matched : Bool := ds ≠ [] && ws ≠ [] &&
    (match r2 with
     | [] => decide (2 ≤ ws.length)
     | c :: _ => !c.isDigit || decide (2 ≤ ws.length))
  if seed = 0 && matched then
    { seed := (natOfDigits ds : Int), team := ⟨r2⟩, score := score }
  else
    { seed := seed, team := pyStrip team, score := score }

@[simp] theorem teamResultInit_score (seed : Int) (team : String) (score : Int) :
    (teamResultInit seed team score).score = score := by
  unfold teamResultInit
  dsimp only
  split <;> rfl

/-! ## `Flags` (analyze.py lines 77-82)

`is_professional` is `str | False` in the source; both `False` and the empty string are
falsy, so it is modelled as a `String` tested against `""`. -/

structure Flags where
  is_tennis : Bool
  is_professional : String
  num_teams : Int
  multi_elim : Bool
  is_national : Bool
  deriving DecidableEq, Repr

/-! ## `TeamResult.fix_seeding` (analyze.py lines 191-222) -/

/-- Per-side field data accumulated by `get_match_data`: the (optional) normalized team
name, the raw seed string, and the list of parsed scores. -/
structure TeamDataIn where
  team : Option String
  seed : Option String
  scores : Option (List Int)
  deriving DecidableEq, Repr

/-- A side's data after `fix_seeding` has resolved the seed to an integer. -/
structure TeamDataR where
  team : Option String
  seed : Int
  scores : Option (List Int)
  deriving DecidableEq, Repr

/-- `re.search(r'\((\d+)\)', s)` combined with
`re.sub(r'^.*\((\d+)\).*$', r'\1', s)` (analyze.py lines 194-195): the greedy leading
`.*` makes the substitution pick the *last* occurrence of a parenthesized digit run. -/
def parenNumAt : List Char → Option Nat
  | '(' :: r =>
    let ds := r.takeWhile (·.isDigit)
    if ds ≠ [] && (r.drop ds.length).head? = some ')' then some (natOfDigits ds) else none
  | _ => none

/-- Value of the last parenthesized digit run in `l`, if any. -/
def lastParenNum : List Char → Option Nat
  | [] => none
  | l@(_ :: ls) =>
    match lastParenNum ls with
    | some v => some v
    | none => parenNumAt l

/-- `re.fullmatch(r'\d+-\d+', s)` (analyze.py line 196): a seed range; returns the first
number (the effect of `re.sub(r'^(\d+)-\d+$', r'\1', s)`). -/
def rangeNum (l : List Char) : Option Nat :=
  let d1 := l.takeWhile (·.isDigit)
  let r1 := l.drop d1.length
  match r1 with
  | '-' :: r2 =>
    let d2 := r2.takeWhile (·.isDigit)
    if d1 ≠ [] && d2 ≠ [] && r2.drop d2.length = [] then some (natOfDigits d1) else none
  | _ => none

/-- The `default_seeding` table of `fix_seeding` (analyze.py lines 208-216).  The source
stores the empty string `''` at position 0 of each row; that position is modelled as `0`:
it can only be selected by an index string parsing to `0`, and the pipeline never
produces one (`get_match_data` strips leading zeros, so an all-zero index becomes the
empty string, which makes `int()` raise before the table is consulted). -/
def defaultSeedRow (n : Int) : List Int :=
  if n = 2 then [0, 1, 2]
  else if n = 3 then [0, 2, 3]
  else if n = 4 then [0, 1, 4, 3, 2]
  else if n = 6 then [0, 4, 5, 3, 6, 1, 2]
  else if n = 8 then [0, 1, 8, 4, 5, 2, 7, 3, 6]
  else if n = 11 then [0, 8, 9, 7, 10, 6, 11]
  else if n = 16 then [0, 1, 16, 8, 9, 5, 12, 4, 13, 6, 11, 3, 14, 7, 10, 2, 15]
  else []

/-- The keys of `default_seeding`. -/
def defaultSeedKeys : List Int := [2, 3, 4, 6, 8, 11, 16]

/-- The number parsed from a digit-bearing seed string by `fix_seeding`
(analyze.py lines 194-199): last parenthesized number, else first number of a `d-d`
range, else all digits concatenated. -/
def seedNumOf (l : List Char) : Nat :=
  match lastParenNum l with
  | some v => v
  | none =>
    match rangeNum l with
    | some v => v
    | none => natOfDigits (l.filter (·.isDigit))

/-- `MAX_SEED` (analyze.py line 41). -/
def MAX_SEED : Int := 20

/-- `TeamResult.fix_seeding` (analyze.py lines 191-222), returning the resolved integer
seed (the source stores it back into `team_data['seed']`; that is the only mutation).

* a seed string containing a digit: prefer the last parenthesized number, else the first
  number of a `d-d` range, else all digits concatenated; clamp to `MAX_SEED`;
* no seed string, known field count (`num_teams != -1`) and round `team_num[0] == '1'`:
  look the seed up in `default_seeding` when the field count is a key and the parsed
  index is below the row length (Python `int` of the index string can raise, modelled as
  `.error`), else `0`;
* otherwise `0`. -/
def fixSeeding (tn : String × String) (td : TeamDataIn) (flags : Flags) :
    Except String Int :=
  match td.seed with
  | some s =>
    if s.data.any (·.isDigit) then
      .ok (if MAX_SEED < (seedNumOf s.data : Int) then MAX_SEED else (seedNumOf s.data : Int))
    else .ok 0
  | none =>
    if flags.num_teams ≠ -1 && tn.1 = "1" then
      if flags.num_teams ∈ defaultSeedKeys then
        match pyInt tn.2 with
        | none => .error "ValueError: invalid literal for int()"
        | some i =>
          if i < ((defaultSeedRow flags.num_teams).length : Int) then
            pyListGet (defaultSeedRow flags.num_teams) i
          else .ok 0
      else .ok 0
    else .ok 0

/-! ## `TeamResult.get_match_data` (analyze.py lines 157-189)

Each line is matched against `re.search(r'RD(\d+)-(team|seed|scores?)(\d+).*=(.*)$', …)`;
a failed match is an `AssertionError`.  The per-team dictionaries are modelled as an
insertion-ordered association list keyed by the `(round, index)` pair of
leading-zero-stripped strings. -/

/-- The field kinds matched by `get_match_data` (`team`, `seed`, `score`, `scores`). -/
inductive RDKind where
  | team
  | seed
  | score
  | scores
  deriving DecidableEq, Repr

/-- Attempt the pattern `RD(\d+)-(team|seed|scores?)(\d+)` at the head of `l`,
returning the two digit groups, the kind, and the remainder after the index digits.
The alternation is deterministic: the literals `team`, `seed`, `score` are pairwise
prefix-incompatible, and the optional `s` of `scores?` is kept only when a digit
follows it (otherwise `(\d+)` could not match). -/
def parseRDAt (l : List Char) : Option (List Char × RDKind × List Char × List Char) :=
  match l with
  | 'R' :: 'D' :: rest =>
    let g1 := rest.takeWhile (·.isDigit)
    let r1 := rest.drop g1.length
    if g1 = [] then none else
    match r1 with
    | '-' :: r2 =>
      let kd : Option (RDKind × List Char) :=
        match r2 with
        | 't' :: 'e' :: 'a' :: 'm' :: r3 => some (.team, r3)
        | 's' :: 'e' :: 'e' :: 'd' :: r3 => some (.seed, r3)
        | 's' :: 'c' :: 'o' :: 'r' :: 'e' :: r3 =>
          match r3 with
          | 's' :: c :: r4 => if c.isDigit then some (.scores, c :: r4) else none
          | 's' :: [] => none
          | _ => some (.score, r3)
        | _ => none
      match kd with
      | none => none
      | some (k, r3) =>
        let g3 := r3.takeWhile (·.isDigit)
        if g3 = [] then none else some (g1, k, g3, r3.drop g3.length)
    | _ => none
  | _ => none

/-- The suffix of `l` after its last `'='`, if `l` contains one
(the effect of the greedy `.*=(.*)$`). -/
def afterLastEq (l : List Char) : Option (List Char) :=
  let rev := l.reverse
  let tl := rev.takeWhile (· ≠ '=')
  match rev.drop tl.length with
  | '=' :: _ => some tl.reverse
  | _ => none

/-- `re.search(r'RD(\d+)-(team|seed|scores?)(\d+).*=(.*)$', line)`: scan left to right
for the first position where the keyed part matches and an `'='` follows; group 4 is the
text after the last `'='`. -/
def findMatchRD : List Char → Option (List Char × RDKind × List Char × List Char)
  | [] => none
  | l@(_ :: ls) =>
    match parseRDAt l with
    | some (g1, k, g3, r) =>
      match afterLastEq r with
      | some g4 => some (g1, k, g3, g4)
      | none => findMatchRD ls
    | none => findMatchRD ls

/-- Python `str.lstrip('0')`. -/
def lstripZeros (l : List Char) : List Char := l.dropWhile (· = '0')

/-- An empty per-side dictionary (what `defaultdict(dict)` creates on first access). -/
def emptyTD : TeamDataIn := ⟨none, none, none⟩

/-- Update the entry for key `k` in the insertion-ordered association list `md`,
creating it (at the end, as Python dict insertion does) from `emptyTD` if absent. -/
def updData (md : List ((String × String) × TeamDataIn)) (k : String × String)
    (f : TeamDataIn → TeamDataIn) : List ((String × String) × TeamDataIn) :=
  if md.any (fun e => e.1 = k) then
    md.map (fun e => if e.1 = k then (k, f e.2) else e)
  else md ++ [(k, f emptyTD)]

/-- `str.strip('*† (OT)')` applied after `str.strip()` (analyze.py line 183): remove any
of the characters `*`, `†`, space, `(`, `O`, `T`, `)` from both ends. -/
def stripScoreDecor (l : List Char) : List Char :=
  let mem (c : Char) : Bool := c = '*' || c = '†' || c = ' ' || c = '(' || c = 'O' || c = 'T' || c = ')'
  ((l.dropWhile mem).reverse.dropWhile mem).reverse

variable {Disamb : Type} (ntn : String → Disamb → String) (npn : String → String → String)
  (d : Disamb)

/-- Process one line of `get_match_data`'s loop (analyze.py lines 164-188).
`ntn`/`npn` stand for `university.normalize_team_name` / `normalize_professional_name`. -/
def processLine (flags : Flags) (md : List ((String × String) × TeamDataIn))
    (line : String) : Except String (List ((String × String) × TeamDataIn)) :=
  match findMatchRD line.data with
  | none => .error "AssertionError: matched is not None"
  | some (g1, k, g3, g4) =>
    let tn : String × String := (⟨lstripZeros g1⟩, ⟨lstripZeros g3⟩)
    match k with
    | .team =>
      let name : String :=
        if flags.is_tennis then "tennis"
        else
          let n := ntn (pyStrip ⟨g4⟩) d
          if flags.is_professional ≠ "" then npn n flags.is_professional else n
      .ok (updData md tn (fun td => { td with team := some name }))
    | .seed => .ok (updData md tn (fun td => { td with seed := some (pyStrip ⟨g4⟩) }))
    | _ =>
      let scoreIn : Int := (pyInt ⟨stripScoreDecor (pyStrip ⟨g4⟩).data⟩).getD 0
      .ok (updData md tn (fun td => { td with scores := some (td.scores.getD [] ++ [scoreIn]) }))

/-- The loop of `get_match_data` over the match lines, threading the accumulated
dictionary. -/
def getMatchDataAux (flags : Flags) (md : List ((String × String) × TeamDataIn)) :
    List String → Except String (List ((String × String) × TeamDataIn))
  | [] => .ok md
  | line :: rest =>
    match processLine ntn npn d flags md line with
    | .error e => .error e
    | .ok md' => getMatchDataAux flags md' rest

/-- `TeamResult.get_match_data` (analyze.py lines 157-189). -/
def getMatchData (flags : Flags) (lines : List String) :
    Except String (List ((String × String) × TeamDataIn)) :=
  getMatchDataAux ntn npn d flags [] lines

/-! ## `TeamResult.game_from_match` (analyze.py lines 224-253) -/

/-- `TeamResult.dict_has_match_data` (analyze.py lines 153-155): Python truthiness of
`team_data.get('team') or team_data.get('seed') or team_data.get('scores')`, evaluated
after `fix_seeding` has made the seed an integer. -/
def dictHasMatchData (td : TeamDataR) : Bool :=
  (match td.team with | some t => t ≠ "" | none => false)
  || td.seed ≠ 0
  || (match td.scores with | some l => l ≠ [] | none => false)

/-- The seed-resolution loop of `game_from_match` (analyze.py lines 231-232): apply
`fix_seeding` to every side in order, stopping at the first exception. -/
def resolveSides (flags : Flags) :
    List ((String × String) × TeamDataIn) → Except String (List TeamDataR)
  | [] => .ok []
  | (tn, td) :: rest =>
    match fixSeeding tn td flags with
    | .error e => .error e
    | .ok s =>
      match resolveSides flags rest with
      | .error e => .error e
      | .ok rs => .ok ({ team := td.team, seed := s, scores := td.scores } :: rs)

/-- `TeamResult.team_from_series` (analyze.py lines 146-151): one `TeamResult` per score,
copying seed and team through the constructor.  A missing `scores` key raises at the
start of the generator; a missing `team` key raises at the first yielded element (so an
empty score list never touches `team`). -/
def teamFromSeries (td : TeamDataR) : Except String (List TeamResult) :=
  match td.scores with
  | none => .error "KeyError: scores"
  | some [] => .ok []
  | some scs =>
    match td.team with
    | none => .error "KeyError: team"
    | some t => .ok (scs.map (fun sc => teamResultInit td.seed t sc))

/-- Heads and tails of a list of lists, `none` if any list is empty
(one step of Python `zip`). -/
def headsTails {α : Type} : List (List α) → Option (List α × List (List α))
  | [] => some ([], [])
  | [] :: _ => none
  | (a :: as) :: rest =>
    match headsTails rest with
    | none => none
    | some (hs, ts) => some (a :: hs, as :: ts)

/-- `zip(*rows)` (continuation once the first row has been split off). -/
def zipFrom {α : Type} : List α → List (List α) → List (List α)
  | [], _ => []
  | a :: as, rs =>
    match headsTails rs with
    | none => []
    | some (hs, ts) => (a :: hs) :: zipFrom as ts

/-- Python `zip(*rows)`: tuples (modelled as lists) of the k-th elements, stopping at the
shortest row; `zip()` of no rows is empty. -/
def pythonZip {α : Type} : List (List α) → List (List α)
  | [] => []
  | r :: rs => zipFrom r rs

/-- The final `yield from zip(*[team_from_series(…) …])` of `game_from_match`
(analyze.py line 252), with the generator's `'exhausted'` return value. -/
def zipSeries (res : List TeamDataR) : Except String (List (List TeamResult) × String) :=
  match res.mapM teamFromSeries with
  | .error e => .error e
  | .ok rows => .ok (pythonZip rows, "exhausted")

/-- Python `max` over the first scores of the sides (analyze.py line 245); only evaluated
when every side has exactly one score, so the list is nonempty there. -/
def maxHeadScore (res : List TeamDataR) : Int :=
  match res.map (fun td => (td.scores.getD []).getD 0 0) with
  | [] => 0
  | a :: as => as.foldl max a

/-- The validation gates, multi-elimination reinterpretation and zip of
`game_from_match` (analyze.py lines 233-253), applied to the seed-resolved sides:

* every side lacks `scores` → sentinel `"no scores"`;
* some side lacks `scores` → sentinel `"missing score"`;
* some side fails `dict_has_match_data` → sentinel `"missing data"`;
* the sides' score-list lengths are not all equal → `KeyError('differing number of
  scores')`;
* multi-elimination with single scores whose maximum is below 5: rewrite the two sides'
  score lists to won/lost tallies (unpacking into exactly two sides, else `ValueError`);
* zip the per-side series into games. -/
def gamesOfResolved (flags : Flags) (res : List TeamDataR) :
    Except String (List (List TeamResult) × String) :=
  if res.all (fun td => td.scores.isNone) then .ok ([], "no scores")
  else if res.any (fun td => td.scores.isNone) then .ok ([], "missing score")
  else if !(res.all dictHasMatchData) then .ok ([], "missing data")
  else if (res.map (fun td => (td.scores.getD []).length)).dedup.length ≠ 1 then
    .error "KeyError: differing number of scores"
  else if flags.multi_elim
      && (res.map (fun td => (td.scores.getD []).length)).dedup = [1]
      && maxHeadScore res < 5 then
    match res with
    | [a, b] =>
      let sa := (a.scores.getD []).getD 0 0
      let sb := (b.scores.getD []).getD 0 0
      let a' := { a with scores := some (List.replicate sa.toNat 1 ++ List.replicate sb.toNat 0) }
      let b' := { b with scores := some (List.replicate sa.toNat 0 ++ List.replicate sb.toNat 1) }
      zipSeries [a', b']
    | _ => .error "ValueError: not exactly two sides to unpack"
  else zipSeries res

/-- `game_from_match` from the already-parsed match data onward
(analyze.py lines 230-253). -/
def gameFromMatchData (flags : Flags) (md : List ((String × String) × TeamDataIn)) :
    Except String (List (List TeamResult) × String) :=
  match resolveSides flags md with
  | .error e => .error e
  | .ok res => gamesOfResolved flags res

/-- `TeamResult.game_from_match` (analyze.py lines 224-253): parse the match lines, fix
the seeds, validate, and zip into games.  The result pairs the yielded games (each game a
list of per-side `TeamResult`s, one per side of the match) with the generator's string
return value. -/
def gameFromMatch (flags : Flags) (lines : List String) :
    Except String (List (List TeamResult) × String) :=
  match getMatchData ntn npn d flags lines with
  | .error e => .error e
  | .ok md => gameFromMatchData flags md

/-! ## `get_bracket_info` (analyze.py lines 301-314) -/

/-- `re.match(r'RD(\d+)-(seed|team|score)(\d+)', line)` (analyze.py line 304), anchored
at the start of the line.  Note the kinds here are the *singular* literals only: after
`score`, the next character must immediately be a digit, so a plural field key such as
`RD1-scores1` does **not** match.  Returns `(int(group 1), int(group 3))`. -/
def matchRD (l : List Char) : Option (Nat × Nat) :=
  match l with
  | 'R' :: 'D' :: rest =>
    let g1 := rest.takeWhile (·.isDigit)
    let r1 := rest.drop g1.length
    if g1 = [] then none else
    match r1 with
    | '-' :: r2 =>
      let rest3 : Option (List Char) :=
        match r2 with
        | 's' :: 'e' :: 'e' :: 'd' :: r3 => some r3
        | 't' :: 'e' :: 'a' :: 'm' :: r3 => some r3
        | 's' :: 'c' :: 'o' :: 'r' :: 'e' :: r3 => some r3
        | _ => none
      match rest3 with
      | none => none
      | some r3 =>
        let g3 := r3.takeWhile (·.isDigit)
        if g3 = [] then none else some (natOfDigits g1, natOfDigits g3)
    | _ => none
  | _ => none

/-- `re.search('score.*-agg', line)` (analyze.py line 306): `score` occurs and `-agg`
occurs somewhere after it. -/
def scoreAgg : List Char → Bool
  | [] => false
  | l@(_ :: ls) =>
    (['s', 'c', 'o', 'r', 'e'].isPrefixOf l && containsSub ['-', 'a', 'g', 'g'] (l.drop 5))
      || scoreAgg ls

/-- Append padding elements so that index `n` exists
(the `while len(…) <= n: append` loops of `get_bracket_info`). -/
def padCols {α : Type} (l : List α) (n : Nat) (pad : α) : List α :=
  l ++ List.replicate (n + 1 - l.length) pad

/-- Insert `line` into `info[r][m]`, growing both levels with empty lists as needed
(analyze.py lines 309-313). -/
def insertLine (info : List (List (List String))) (r m : Nat) (line : String) :
    List (List (List String)) :=
  let info1 := padCols info r []
  let row := info1.getD r []
  let row1 := padCols row m []
  let row2 := row1.set m (row1.getD m [] ++ [line])
  info1.set r row2

/-- The loop body of `get_bracket_info`: group a line by round `int(group 1)` and match
pair `(int(group 3) + 1) / 2` when it matches the key pattern and is not an aggregate
score field. -/
def bracketInfoStep (info : List (List (List String)) ) (line : String) :
    List (List (List String)) :=
  match matchRD line.data with
  | some (r, i) => if scoreAgg line.data then info else insertLine info r ((i + 1) / 2) line
  | none => info

/-- `get_bracket_info` on the already-split lines. -/
def getBracketInfoLines (lines : List String) : List (List (List String)) :=
  lines.foldl bracketInfoStep []

/-! ### Splitting on `\s*[|\n]\s*` (analyze.py line 303)

The separator regex at a given position: a greedy whitespace run, then `|` or `\n`, then
a greedy whitespace run.  Since `\n` is itself whitespace, a match starts at a position
exactly when the whitespace run from it ends at a `|` (then the separator swallows the
`|` and any following whitespace) or contains a `\n` (then the separator is that whole
run). -/

/-- Length of a separator match of `\s*[|\n]\s*` starting exactly here, if any. -/
def sepPNAt (l : List Char) : Option Nat :=
  let ws := l.takeWhile pyIsSpace
  match l.drop ws.length with
  | '|' :: r2 => some (ws.length + 1 + (r2.takeWhile pyIsSpace).length)
  | _ => if '\n' ∈ ws then some ws.length else none

/-- Length of a separator match of `\s*\n\s*` starting exactly here, if any
(analyze.py line 319): the whitespace run from this position, provided it contains a
newline. -/
def sepNlAt (l : List Char) : Option Nat :=
  let ws := l.takeWhile pyIsSpace
  if '\n' ∈ ws then some ws.length else none

/-- `re.split` driven by a separator-matcher `sepAt`: scan left to right, cutting a token
at each leftmost separator match.  `fuel` bounds the recursion (every separator consumes
at least one character, so `l.length + 1` is always enough). -/
def splitLoop (sepAt : List Char → Option Nat) : Nat → List Char → List Char → List String
  | 0, l, cur => [⟨cur.reverse ++ l⟩]
  | _ + 1, [], cur => [⟨cur.reverse⟩]
  | fuel + 1, l@(c :: ls), cur =>
    match sepAt l with
    | some n => ⟨cur.reverse⟩ :: splitLoop sepAt fuel (l.drop n) []
    | none => splitLoop sepAt fuel ls (c :: cur)

/-- `re.split(r'\s*[|\n]\s*', bracket)` (analyze.py line 303). -/
def splitBracket (s : String) : List String :=
  splitLoop sepPNAt (s.data.length + 1) s.data []

/-- `re.split(r'\s*\n\s*', bracket)` (analyze.py line 319). -/
def splitNfl (s : String) : List String :=
  splitLoop sepNlAt (s.data.length + 1) s.data []

/-- `get_bracket_info` (analyze.py lines 301-314). -/
def getBracketInfo (bracket : String) : List (List (List String)) :=
  getBracketInfoLines (splitBracket bracket)

/-- The group of lines for round `r`, match `m` (missing indices give the empty
group). -/
def linesAt (info : List (List (List String))) (r m : Nat) : List String :=
  (info.getD r []).getD m []

/-! ## The NFL path (analyze.py lines 137-144 and 317-324) -/

/-- Python `str.rstrip('|')`. -/
def rstripPipe (s : String) : String :=
  ⟨(s.data.reverse.dropWhile (· = '|')).reverse⟩

/-- Helper for `pySplitPipe`: accumulate the current piece (reversed) while scanning. -/
def splitPipeAux : List Char → List Char → List String
  | [], cur => [⟨cur.reverse⟩]
  | '|' :: ls, cur => ⟨cur.reverse⟩ :: splitPipeAux ls []
  | c :: ls, cur => splitPipeAux ls (c :: cur)

/-- Python `str.split('|')` (analyze.py line 320): split on every pipe character,
keeping empty pieces; the empty string yields `[""]`. -/
def pySplitPipe (s : String) : List String :=
  splitPipeAux s.data []

/-- `re.sub(r'\D', '', seed)` followed by `int(…) if … else 0`
(analyze.py lines 140-141). -/
def nflSeedVal (seed : String) : Int :=
  let ds := seed.data.filter (·.isDigit)
  if ds = [] then 0 else (natOfDigits ds : Int)

/-- The normalized name of an NFL side (analyze.py lines 142-143). -/
def nflName (name : String) : String :=
  npn (ntn (pyStrip name) d) "NFL"

/-- `TeamResult.from_nfl_pieces` (analyze.py lines 137-144); `int(score)` can raise
`ValueError`. -/
def fromNflPieces (seed name score : String) : Except String TeamResult :=
  match pyInt score with
  | none => .error "ValueError: invalid literal for int()"
  | some sc => .ok (teamResultInit (nflSeedVal seed) (nflName ntn npn d name) sc)

/-- A game as produced by the NFL path and consumed by `get_game`
(`Game = tuple[TeamResult, TeamResult]`, analyze.py line 266). -/
def Game := TeamResult × TeamResult

instance : DecidableEq Game := instDecidableEqProd

/-- The per-line loop of `get_game_from_nfl_bracket` (analyze.py lines 319-324): strip
trailing pipes, split on `|`, skip lines with fewer than 6 pieces, and build the two
sides from the trailing six pieces. -/
def nflLinesGames : List String → Except String (List Game)
  | [] => .ok []
  | line :: rest =>
    let pieces := pySplitPipe (rstripPipe line)
    if pieces.length < 6 then nflLinesGames rest
    else
      match pieces.drop (pieces.length - 6) with
      | [a, b, c, x, y, z] =>
        match fromNflPieces ntn npn d a b c with
        | .error e => .error e
        | .ok t1 =>
          match fromNflPieces ntn npn d x y z with
          | .error e => .error e
          | .ok t2 =>
            match nflLinesGames rest with
            | .error e => .error e
            | .ok gs => .ok ((t1, t2) :: gs)
      | _ => .error "unreachable: drop of a list of length at least 6"

/-- `get_game_from_nfl_bracket` (analyze.py lines 317-324). -/
def getGameFromNflBracket (bracket : String) : Except String (List Game) :=
  nflLinesGames ntn npn d (splitNfl bracket)

/-! ## The winner-first reordering of `get_game` (analyze.py lines 364-367) -/

/-- The reordering applied by `get_game` to every extracted game: swap the pair exactly
when the first side's score is strictly below the second's. -/
def reorderGame (g : Game) : Game :=
  if g.1.score < g.2.score then (g.2, g.1) else g

/-- `get_game`'s yield loop over the games extracted from one page: each game is yielded
after the winner-first reordering. -/
def getGameYield (extracted : List Game) : List Game :=
  extracted.map reorderGame

/-! ## List helper lemmas -/

theorem getD_set_self {α : Type} (l : List α) (n : Nat) (a dd : α) (h : n < l.length) :
    (l.set n a).getD n dd = a := by
  simp [List.getD_eq_getElem?_getD, List.getElem?_set_self, h]

theorem getD_set_ne {α : Type} (l : List α) (n k : Nat) (a dd : α) (h : n ≠ k) :
    (l.set n a).getD k dd = l.getD k dd := by
  simp [List.getD_eq_getElem?_getD, List.getElem?_set_ne, h]

theorem getD_padCols {α : Type} (l : List α) (n k : Nat) (dd : α) :
    (padCols l n dd).getD k dd = l.getD k dd := by
  unfold padCols
  by_cases h : k < l.length
  · simp [List.getD_eq_getElem?_getD, List.getElem?_append, h]
  · rw [List.getD_eq_getElem?_getD, List.getElem?_append, if_neg h]
    rw [List.getD_eq_getElem?_getD (l := l), List.getElem?_eq_none (le_of_not_lt h)]
    cases hrep : (List.replicate (n + 1 - l.length) dd)[k - l.length]? with
    | none => rfl
    | some v =>
      have hv : v ∈ List.replicate (n + 1 - l.length) dd := by
        have h2 := List.getElem?_eq_some_iff.mp hrep
        rcases h2 with ⟨hlt, hget⟩
        exact hget ▸ List.getElem_mem hlt
      simp [List.eq_of_mem_replicate hv]

theorem length_padCols {α : Type} (l : List α) (n : Nat) (dd : α) :
    n < (padCols l n dd).length := by
  simp [padCols]
  omega

theorem linesAt_insertLine_self (info : List (List (List String))) (r m : Nat)
    (line : String) :
    linesAt (insertLine info r m line) r m = linesAt info r m ++ [line] := by
  unfold insertLine linesAt
  rw [getD_set_self _ _ _ _ (length_padCols info r []),
      getD_set_self _ _ _ _ (length_padCols _ m []),
      getD_padCols, getD_padCols]

theorem linesAt_insertLine_ne (info : List (List (List String))) (r m r' m' : Nat)
    (line : String) (h : r ≠ r' ∨ m ≠ m') :
    linesAt (insertLine info r m line) r' m' = linesAt info r' m' := by
  unfold insertLine linesAt
  rcases h with h | h
  · rw [getD_set_ne _ _ _ _ _ h, getD_padCols]
  · by_cases hr : r = r'
    · subst hr
      rw [getD_set_self _ _ _ _ (length_padCols info r []),
          getD_set_ne _ _ _ _ _ h, getD_padCols, getD_padCols]
    · rw [getD_set_ne _ _ _ _ _ hr, getD_padCols]

theorem mem_linesAt_bracketInfoStep (info : List (List (List String))) (l' line : String)
    (r m : Nat) (h : line ∈ linesAt info r m) :
    line ∈ linesAt (bracketInfoStep info l') r m := by
  unfold bracketInfoStep
  cases matchRD l'.data with
  | none => exact h
  | some p =>
    dsimp only
    split
    · exact h
    · by_cases hk : p.1 = r ∧ (p.2 + 1) / 2 = m
      · rw [hk.1, hk.2, linesAt_insertLine_self]
        exact List.mem_append_left _ h
      · rw [linesAt_insertLine_ne]
        · exact h
        · rcases Decidable.not_and_iff_or_not.mp hk with h1 | h1
          · exact Or.inl h1
          · exact Or.inr h1

theorem mem_linesAt_foldl (lines : List String) (info : List (List (List String)))
    (line : String) (r m : Nat) (h : line ∈ linesAt info r m) :
    line ∈ linesAt (lines.foldl bracketInfoStep info) r m := by
  induction lines generalizing info with
  | nil => exact h
  | cons l ls ih => exact ih _ (mem_linesAt_bracketInfoStep info l line r m h)

/-! ## Claim theorems -/

/-- C1: every game yielded by `get_game` has been passed through `reorderGame`
(analyze.py lines 364-367), so its first side's score is at least the second's; and a
game whose two scores are equal is not swapped, i.e. it is yielded in the order in which
it was extracted. -/
theorem c1_winner_first (extracted : List Game) :
    (∀ g ∈ getGameYield extracted, g.2.score ≤ g.1.score) ∧
    (∀ g ∈ extracted, g.1.score = g.2.score → reorderGame g = g) := by
  constructor
  · intro g hg
    rcases List.mem_map.mp hg with ⟨g0, _, rfl⟩
    unfold reorderGame
    split
    · next h => exact le_of_lt h
    · next h => exact le_of_not_lt h
  · intro g _ h
    unfold reorderGame
    rw [if_neg (by rw [h]; exact lt_irrefl _)]

/-- Witness for C1 at a concrete tied game: it is yielded unswapped. -/
theorem c1_winner_first_witness :
    reorderGame (⟨1, "x", 7⟩, ⟨2, "y", 7⟩) = (⟨1, "x", 7⟩, ⟨2, "y", 7⟩) :=
  (c1_winner_first [(⟨1, "x", 7⟩, ⟨2, "y", 7⟩)]).2 _ (List.mem_singleton.mpr rfl) rfl

/-- C2 (counterexample): the grouping regex of `get_bracket_info` (analyze.py line 304)
uses the singular kinds `(seed|team|score)` immediately followed by digits, so the
plural-kind line `RD1-scores1=7` does not match and is dropped entirely: the resulting
bracket info is empty, and in particular the line is *not* placed in the group for
round 1, match 1 as the claim states. -/
theorem c2_scores_counterexample :
    getBracketInfo "RD1-scores1=7" = [] ∧
    linesAt (getBracketInfo "RD1-scores1=7") 1 1 = [] := by
  constructor <;> rfl

/-- Accumulator-generalized form of the C2 grouping lemma. -/
theorem c2_grouping_aux (lines : List String) (info : List (List (List String)))
    (line : String) (r i : Nat)
    (hmem : line ∈ lines) (hmatch : matchRD line.data = some (r, i))
    (hagg : scoreAgg line.data = false) :
    line ∈ linesAt (lines.foldl bracketInfoStep info) r ((i + 1) / 2) := by
  induction lines generalizing info with
  | nil => cases hmem
  | cons l ls ih =>
    rw [List.foldl_cons]
    rcases List.mem_cons.mp hmem with rfl | hmem'
    · apply mem_linesAt_foldl
      unfold bracketInfoStep
      rw [hmatch]
      dsimp only
      rw [if_neg (by rw [hagg]; exact Bool.false_ne_true)]
      rw [linesAt_insertLine_self]
      exact List.mem_append_right _ (List.mem_singleton.mpr rfl)
    · exact ih _ hmem'

/-- C2 (amended): every line whose field key matches `RD<round>-<kind><index>` with a
*singular* kind in `{team, seed, score}` and which is not an aggregate score field is
placed by `get_bracket_info`'s grouping step into the group for round `<round>`, match
`(index + 1) / 2`; plural `scores` keys do not match the grouping regex. -/
theorem c2_grouping (lines : List String) (line : String) (r i : Nat)
    (hmem : line ∈ lines) (hmatch : matchRD line.data = some (r, i))
    (hagg : scoreAgg line.data = false) :
    line ∈ linesAt (getBracketInfoLines lines) r ((i + 1) / 2) :=
  c2_grouping_aux lines [] line r i hmem hmatch hagg

/-- Witness for C2's amended theorem at a concrete single line. -/
theorem c2_grouping_witness :
    "RD1-team1=Duke" ∈ linesAt (getBracketInfoLines ["RD1-team1=Duke"]) 1 1 :=
  c2_grouping ["RD1-team1=Duke"] "RD1-team1=Duke" 1 1 (List.mem_singleton.mpr rfl)
    (by rfl) (by rfl)

/-! ## C3: the validation gates of `game_from_match` -/

/-- C3: the validation gate of `game_from_match` (analyze.py lines 233-242) evaluates
its conditions in this fixed order, each short-circuiting: no side has a scores list →
sentinel `"no scores"`; some but not all sides have one → sentinel `"missing score"`;
some side has no team/seed/scores data at all → sentinel `"missing data"`; the sides'
score-list lengths differ → the hard error `KeyError('differing number of scores')`
instead of a sentinel. -/
theorem c3_validation_gates (flags : Flags) (md : List ((String × String) × TeamDataIn))
    (res : List TeamDataR) (hres : resolveSides flags md = .ok res) :
    (res.all (fun td => td.scores.isNone) = true →
      gameFromMatchData flags md = .ok ([], "no scores")) ∧
    (res.all (fun td => td.scores.isNone) = false →
      res.any (fun td => td.scores.isNone) = true →
      gameFromMatchData flags md = .ok ([], "missing score")) ∧
    (res.all (fun td => td.scores.isNone) = false →
      res.any (fun td => td.scores.isNone) = false →
      res.all dictHasMatchData = false →
      gameFromMatchData flags md = .ok ([], "missing data")) ∧
    (res.all (fun td => td.scores.isNone) = false →
      res.any (fun td => td.scores.isNone) = false →
      res.all dictHasMatchData = true →
      (res.map (fun td => (td.scores.getD []).length)).dedup.length ≠ 1 →
      gameFromMatchData flags md = .error "KeyError: differing number of scores") := by
  unfold gameFromMatchData
  rw [hres]
  unfold gamesOfResolved
  refine ⟨?_, ?_, ?_, ?_⟩
  · intro h1; simp [h1]
  · intro h1 h2; simp [h1, h2]
  · intro h1 h2 h3; simp [h1, h2, h3]
  · intro h1 h2 h3 h4; simp [h1, h2, h3, h4]

/-- Witness for C3 at a concrete match with a single side carrying no scores. -/
theorem c3_validation_gates_witness :
    gameFromMatchData ⟨false, "", -1, false, false⟩ [(("1", "1"), ⟨some "A", none, none⟩)]
      = .ok ([], "no scores") :=
  (c3_validation_gates ⟨false, "", -1, false, false⟩
    [(("1", "1"), ⟨some "A", none, none⟩)] [⟨some "A", 0, none⟩] (by rfl)).1 (by rfl)

/-! ## C5 and C6: seed resolution -/

/-- Reduction of Python list indexing at a valid non-negative index. -/
theorem pyListGet_nonneg {α : Type} (l : List α) (i : Int) (dd : α) (h0 : 0 ≤ i)
    (hlt : i.toNat < l.length) : pyListGet l i = .ok (l.getD i.toNat dd) := by
  unfold pyListGet
  have hni : ¬ i < 0 := by omega
  simp only [if_neg hni]
  rw [dif_pos ⟨h0, hlt⟩]
  rw [List.getD_eq_getElem l dd hlt]
  rfl

/-- Python list indexing returns an element of the list. -/
theorem pyListGet_mem {α : Type} (l : List α) (i : Int) (a : α)
    (h : pyListGet l i = .ok a) : a ∈ l := by
  by_cases hc : 0 ≤ (if i < 0 then (l.length : Int) + i else i) ∧
      (if i < 0 then (l.length : Int) + i else i).toNat < l.length
  · simp only [pyListGet] at h
    rw [dif_pos hc] at h
    cases h
    exact List.get_mem _ _ _
  · simp only [pyListGet] at h
    rw [dif_neg hc] at h
    cases h

/-- C5 (counterexample): with no seed string, a known field count of 8, round `"1"` and
team index `"2"` — the *second* slot of the first match, so not "team-index 1 of the
match" — `fix_seeding` assigns the table seed 8, not the seed 0 the claim requires for
every side other than the first slot. -/
theorem c5_first_slot_counterexample :
    fixSeeding ("1", "2") ⟨none, none, none⟩ ⟨false, "", 8, false, false⟩ = .ok 8 ∧
    (8 : Int) ≠ 0 := by
  constructor
  · rfl
  · decide

/-- C5 (amended): for a side with no seed string and a known field count, the default
seed is taken from the `default_seeding` table exactly when the *round* number
(`team_num[0]`) is `"1"`, the field count is one of 2, 3, 4, 6, 8, 11, 16, and the
side's index within the round is inside the table row; in every other such case the
seed is 0.  The table is keyed by the side's index within the round, not by first-slot
status.  (The hypothesis `1 ≤ i` records that pipeline index strings are nonempty with
no leading zeros, which keeps the placeholder at row position 0 out of reach.) -/
theorem c5_default_seeding (tn : String × String) (td : TeamDataIn) (flags : Flags)
    (i : Int) (hseed : td.seed = none) (hnt : flags.num_teams ≠ -1)
    (hi : pyInt tn.2 = some i) (hipos : 1 ≤ i) :
    fixSeeding tn td flags =
      .ok (if tn.1 = "1" ∧ flags.num_teams ∈ defaultSeedKeys ∧
             i < ((defaultSeedRow flags.num_teams).length : Int)
           then (defaultSeedRow flags.num_teams).getD i.toNat 0 else 0) := by
  unfold fixSeeding
  rw [hseed]
  dsimp only
  by_cases h1 : tn.1 = "1"
  · rw [if_pos (by simp [h1, hnt])]
    by_cases h2 : flags.num_teams ∈ defaultSeedKeys
    · rw [if_pos h2, hi]
      dsimp only
      by_cases h3 : i < ((defaultSeedRow flags.num_teams).length : Int)
      · rw [if_pos h3, if_pos ⟨h1, h2, h3⟩]
        exact pyListGet_nonneg _ _ _ (by omega) (by omega)
      · rw [if_neg h3, if_neg (by tauto)]
    · rw [if_neg h2, if_neg (by tauto)]
  · rw [if_neg (by simp [h1]), if_neg (by tauto)]

/-- Witness for C5's amended theorem: round 1, index 3, field count 16 resolves to
table seed 8. -/
theorem c5_default_seeding_witness :
    fixSeeding ("1", "3") ⟨none, none, none⟩ ⟨false, "", 16, false, false⟩ = .ok 8 := by
  rw [c5_default_seeding ("1", "3") ⟨none, none, none⟩ ⟨false, "", 16, false, false⟩ 3
    rfl (by decide) rfl (by decide)]
  rfl

/-- Every entry of the `default_seeding` table lies between 0 and 20. -/
theorem defaultSeedRow_bounds (n : Int) (v : Int) (hv : v ∈ defaultSeedRow n) :
    0 ≤ v ∧ v ≤ 20 := by
  have hsub : defaultSeedRow n ⊆ [0, 1, 2, 3, 4, 5, 6, 7, 8, 9, 10, 11, 12, 13, 14, 15, 16] := by
    unfold defaultSeedRow
    repeat' split
    all_goals decide
  have hv2 := hsub hv
  fin_cases hv2 <;> decide

/-- C6 (amended): every seed resolved by `fix_seeding` is clamped into
`0 ≤ s ≤ MAX_SEED`.  (The claim as stated over *every* `TeamResult` of the pipeline
fails: the `TeamResult` constructor and the NFL piece parser do not clamp, see the
counterexample.) -/
theorem c6_fix_seeding_clamped (tn : String × String) (td : TeamDataIn) (flags : Flags)
    (s : Int) (h : fixSeeding tn td flags = .ok s) : 0 ≤ s ∧ s ≤ MAX_SEED := by
  rcases td with ⟨tteam, tseed, tscores⟩
  unfold fixSeeding at h
  cases tseed with
  | some str =>
    dsimp only at h
    split at h
    · cases h
      unfold MAX_SEED
      split <;> omega
    · cases h
      constructor <;> decide
  | none =>
    dsimp only at h
    split at h
    · split at h
      · split at h
        · cases h
        · split at h
          · exact defaultSeedRow_bounds _ _ (pyListGet_mem _ _ _ h)
          · cases h
            constructor <;> decide
      · cases h
        constructor <;> decide
    · cases h
      constructor <;> decide

/-- Witness for C6's amended theorem at a concrete parenthesized seed string. -/
theorem c6_fix_seeding_clamped_witness : (0 : Int) ≤ 3 ∧ (3 : Int) ≤ MAX_SEED :=
  c6_fix_seeding_clamped ("1", "1") ⟨none, some "(3)", none⟩ ⟨false, "", -1, false, false⟩
    3 rfl

/-- C6 (counterexample): `TeamResult.__init__` moves a leading number of the team string
into the seed *without clamping*: the pipeline-constructible call
`TeamResult(0, "25 Foo", 0)` stores seed 25, which exceeds `MAX_SEED = 20`.  (The same
happens on the NFL path, whose `from_nfl_pieces` never clamps the seed it parses.) -/
theorem c6_seed_above_max_counterexample :
    (teamResultInit 0 "25 Foo" 0).seed = 25 ∧
    ¬ ((teamResultInit 0 "25 Foo" 0).seed ≤ MAX_SEED) := by
  constructor
  · rfl
  · decide

/-! ## C10: the constructor's leading-number extraction -/

theorem pyIsSpace_not_digit (c : Char) (h : pyIsSpace c = true) : c.isDigit = false := by
  simp only [pyIsSpace, Bool.or_eq_true, decide_eq_true_eq] at h
  rcases h with ((((rfl | rfl) | rfl) | rfl) | rfl) | rfl <;> decide

theorem takeWhile_append_of {α : Type} (p : α → Bool) (l1 l2 : List α)
    (h1 : ∀ c ∈ l1, p c = true) (h2 : ∀ c, l2.head? = some c → p c = false) :
    (l1 ++ l2).takeWhile p = l1 := by
  induction l1 with
  | nil =>
    cases l2 with
    | nil => rfl
    | cons c t => simp [List.takeWhile_cons, h2 c rfl]
  | cons a t ih =>
    simp only [List.cons_append, List.takeWhile_cons, h1 a (List.mem_cons_self a t),
      if_true, List.cons.injEq, true_and]
    exact ih (fun c hc => h1 c (List.mem_cons_of_mem _ hc))

theorem takeWhile_drop_append {α : Type} (p : α → Bool) (l : List α) :
    l.takeWhile p ++ l.drop (l.takeWhile p).length = l := by
  induction l with
  | nil => rfl
  | cons a t ih =>
    by_cases hp : p a
    · rw [List.takeWhile_cons, if_pos hp]
      simpa using ih
    · rw [List.takeWhile_cons, if_neg hp]
      rfl

theorem head_drop_takeWhile {α : Type} (p : α → Bool) (l : List α) (c : α) (cs : List α)
    (h : l.drop (l.takeWhile p).length = c :: cs) : p c = false := by
  induction l generalizing c cs with
  | nil => cases h
  | cons a t ih =>
    by_cases hp : p a
    · rw [List.takeWhile_cons, if_pos hp] at h
      exact ih c cs (by simpa using h)
    · rw [List.takeWhile_cons, if_neg hp] at h
      simp only [List.length_nil, List.drop_zero] at h
      cases h
      cases hb : p a with
      | false => rfl
      | true => exact absurd hb hp

/-- C10 (amended): `TeamResult.__init__` moves a leading number of the team string into
the seed exactly when the seed argument is `0` and the *raw* (unstripped) team string
starts with digits followed by whitespace and a further non-digit character (a second
whitespace character may serve as that non-digit); the stored team is then the remainder
after the first whitespace run, with no further stripping and no clamping of the seed.
For any other arguments the seed and the stripped team are stored unchanged: with a
nonzero seed argument (part 2), with a team string that does not start with a digit
(part 3), and — covering every remaining case, e.g. `"12Foo"`, `"1 2"` or `"7 "` — with
any team string that admits *no* digits + whitespace + non-digit decomposition at all
(part 4). -/
theorem c10_init_extraction (seed score : Int) :
    (∀ ds ws rest : List Char, ds ≠ [] → (∀ c ∈ ds, c.isDigit = true) →
      ws ≠ [] → (∀ c ∈ ws, pyIsSpace c = true) →
      (match rest with
       | [] => 2 ≤ ws.length
       | c :: _ => pyIsSpace c = false ∧ (c.isDigit = false ∨ 2 ≤ ws.length)) →
      teamResultInit 0 ⟨ds ++ ws ++ rest⟩ score =
        ⟨(natOfDigits ds : Int), ⟨rest⟩, score⟩) ∧
    (∀ team : String, seed ≠ 0 →
      teamResultInit seed team score = ⟨seed, pyStrip team, score⟩) ∧
    (∀ team : String, (∀ c, team.data.head? = some c → c.isDigit = false) →
      teamResultInit 0 team score = ⟨0, pyStrip team, score⟩) ∧
    (∀ team : String,
      (¬ ∃ ds ws rest : List Char, team.data = ds ++ ws ++ rest ∧ ds ≠ [] ∧
        (∀ c ∈ ds, c.isDigit = true) ∧ ws ≠ [] ∧ (∀ c ∈ ws, pyIsSpace c = true) ∧
        (match rest with
         | [] => 2 ≤ ws.length
         | c :: _ => pyIsSpace c = false ∧ (c.isDigit = false ∨ 2 ≤ ws.length))) →
      teamResultInit 0 team score = ⟨0, pyStrip team, score⟩) := by
  refine ⟨?_, ?_, ?_, ?_⟩
  · intro ds ws rest hds hdall hws hwall hrest
    unfold teamResultInit
    dsimp only
    rw [List.append_assoc]
    have hwhead : ∀ c, (ws ++ rest).head? = some c → (fun x => x.isDigit) c = false := by
      cases ws with
      | nil => exact absurd rfl hws
      | cons w t =>
        intro c hc
        simp only [List.cons_append, List.head?_cons, Option.some.injEq] at hc
        subst hc
        exact pyIsSpace_not_digit _ (hwall _ (List.mem_cons_self _ _))
    have e1 : (ds ++ (ws ++ rest)).takeWhile (fun x => x.isDigit) = ds :=
      takeWhile_append_of _ _ _ hdall hwhead
    rw [e1, List.drop_left]
    have hrhead : ∀ c, rest.head? = some c → pyIsSpace c = false := by
      cases rest with
      | nil => intro c hc; cases hc
      | cons c t =>
        intro c2 hc2
        simp only [List.head?_cons, Option.some.injEq] at hc2
        subst hc2
        exact hrest.1
    have e2 : (ws ++ rest).takeWhile pyIsSpace = ws :=
      takeWhile_append_of _ _ _ hwall hrhead
    rw [e2, List.drop_left]
    rw [if_pos]
    have hM : (match rest with
        | [] => decide (2 ≤ ws.length)
        | c :: _ => !c.isDigit || decide (2 ≤ ws.length)) = true := by
      cases rest with
      | nil => simpa using hrest
      | cons c t =>
        rcases hrest with ⟨_, hd | hlen⟩
        · simp [hd]
        · simp [hlen]
    simp [hds, hws, hM]
  · intro team hs
    unfold teamResultInit
    dsimp only
    rw [if_neg (by simp [hs])]
  · intro team hhead
    unfold teamResultInit
    dsimp only
    have hds : team.data.takeWhile (fun x => x.isDigit) = [] := by
      cases h : team.data with
      | nil => rfl
      | cons c t => simp [List.takeWhile_cons, hhead c (by rw [h]; rfl)]
    rw [if_neg (by simp [hds])]
  · intro team hne
    unfold teamResultInit
    dsimp only
    split
    · next hc =>
      exfalso
      apply hne
      simp only [Bool.and_eq_true, decide_eq_true_eq] at hc
      obtain ⟨-, ⟨hds, hws⟩, hM⟩ := hc
      refine ⟨team.data.takeWhile (fun x => x.isDigit),
        (team.data.drop (team.data.takeWhile (fun x => x.isDigit)).length).takeWhile pyIsSpace,
        (team.data.drop (team.data.takeWhile (fun x => x.isDigit)).length).drop
          ((team.data.drop
            (team.data.takeWhile (fun x => x.isDigit)).length).takeWhile pyIsSpace).length,
        ?_, hds, ?_, hws, ?_, ?_⟩
      · rw [List.append_assoc, takeWhile_drop_append, takeWhile_drop_append]
      · exact fun c hc2 => List.mem_takeWhile_imp hc2
      · exact fun c hc2 => List.mem_takeWhile_imp hc2
      · cases hr2 : (team.data.drop (team.data.takeWhile (fun x => x.isDigit)).length).drop
            ((team.data.drop
              (team.data.takeWhile (fun x => x.isDigit)).length).takeWhile pyIsSpace).length with
        | nil =>
          rw [hr2] at hM
          simpa using hM
        | cons c cs =>
          rw [hr2] at hM
          simp only [Bool.or_eq_true, Bool.not_eq_eq_eq_not, Bool.not_true,
            decide_eq_true_eq] at hM
          exact ⟨head_drop_takeWhile pyIsSpace _ c cs hr2, hM⟩
    · next hc => rfl

/-- Witness for C10's amended theorem: the extraction fires on the raw team string
`"12 Foo"` (part 1), and the complement clause stores `"12Foo"` unchanged (part 4). -/
theorem c10_init_extraction_witness :
    teamResultInit 0 ⟨['1', '2'] ++ [' '] ++ ['F', 'o', 'o']⟩ 5 =
      ⟨(natOfDigits ['1', '2'] : Int), ⟨['F', 'o', 'o']⟩, 5⟩ ∧
    teamResultInit 0 "12Foo" 5 = ⟨0, pyStrip "12Foo", 5⟩ :=
  ⟨(c10_init_extraction 0 5).1 ['1', '2'] [' '] ['F', 'o', 'o'] (by decide) (by decide)
    (by decide) (by decide) (by decide),
   (c10_init_extraction 0 5).2.2.2 "12Foo" (by
    rintro ⟨ds, ws, rest, heq, hds, hdall, hws, hwall, hM⟩
    cases ws with
    | nil => exact hws rfl
    | cons w ws2 =>
      have hwmem : w ∈ "12Foo".data := by
        rw [heq]
        simp [List.mem_append]
      have hwsp := hwall w (List.mem_cons_self _ _)
      have hno : ∀ c ∈ "12Foo".data, pyIsSpace c = false := by decide
      rw [hno w hwmem] at hwsp
      cases hwsp)⟩

/-- C10 (counterexample): the constructor matches the *raw* team string, not the
stripped one.  For `TeamResult(0, " 12 Foo", 5)` the stripped team string `"12 Foo"`
begins with digits + whitespace + non-digit, so the claim requires seed 12 and team
`"Foo"`; but the raw string begins with a space, the regex fails, and the code stores
seed 0 with team `"12 Foo"`. -/
theorem c10_raw_match_counterexample :
    teamResultInit 0 " 12 Foo" 5 = ⟨0, "12 Foo", 5⟩ ∧
    teamResultInit 0 " 12 Foo" 5 ≠ ⟨12, "Foo", 5⟩ := by
  constructor
  · rfl
  · decide

/-! ## C4: the multi-elimination tally reinterpretation -/

/-- C4: under the multi-elimination flag, a match of exactly two sides with single
scores 3 and 1 (maximum below the threshold 5) is reinterpreted as a won/lost tally:
`game_from_match` yields exactly 4 games, of which the first side's score exceeds the
second's in exactly 3 and the second side's score exceeds the first's in exactly 1. -/
theorem c4_multi_elim_tally (flags : Flags) (hme : flags.multi_elim = true)
    (md : List ((String × String) × TeamDataIn)) (t1 t2 : String) (s1 s2 : Int)
    (hres : resolveSides flags md =
      .ok [⟨some t1, s1, some [3]⟩, ⟨some t2, s2, some [1]⟩]) :
    ∃ gs : List (List TeamResult),
      gameFromMatchData flags md = .ok (gs, "exhausted") ∧
      gs.length = 4 ∧
      gs.countP (fun g => (g.getD 1 default).score < (g.getD 0 default).score) = 3 ∧
      gs.countP (fun g => (g.getD 0 default).score < (g.getD 1 default).score) = 1 := by
  unfold gameFromMatchData
  rw [hres]
  unfold gamesOfResolved
  dsimp only
  rw [if_neg (by simp), if_neg (by simp), if_neg (by simp [dictHasMatchData]),
    if_neg (by simp), if_pos (by simp [hme, maxHeadScore])]
  refine ⟨[[teamResultInit s1 t1 1, teamResultInit s2 t2 0],
           [teamResultInit s1 t1 1, teamResultInit s2 t2 0],
           [teamResultInit s1 t1 1, teamResultInit s2 t2 0],
           [teamResultInit s1 t1 0, teamResultInit s2 t2 1]], ?_, ?_, ?_, ?_⟩
  · rfl
  · rfl
  · simp [List.countP_cons, List.getD_cons_zero, List.getD_cons_succ]
  · simp [List.countP_cons, List.getD_cons_zero, List.getD_cons_succ]

/-- Witness for C4 at a concrete multi-elimination match. -/
theorem c4_multi_elim_tally_witness :
    ∃ gs : List (List TeamResult),
      gameFromMatchData ⟨false, "", -1, true, false⟩
        [(("1", "1"), ⟨some "A", none, some [3]⟩), (("1", "2"), ⟨some "B", none, some [1]⟩)]
        = .ok (gs, "exhausted") ∧
      gs.length = 4 ∧
      gs.countP (fun g => (g.getD 1 default).score < (g.getD 0 default).score) = 3 ∧
      gs.countP (fun g => (g.getD 0 default).score < (g.getD 1 default).score) = 1 :=
  c4_multi_elim_tally ⟨false, "", -1, true, false⟩ rfl
    [(("1", "1"), ⟨some "A", none, some [3]⟩), (("1", "2"), ⟨some "B", none, some [1]⟩)]
    "A" "B" 0 0 (by rfl)

/-! ## C7: the NFL path -/

theorem getD_drop {α : Type} (l : List α) (n m : Nat) (dd : α) :
    (l.drop n).getD m dd = l.getD (n + m) dd := by
  simp [List.getD_eq_getElem?_getD, List.getElem?_drop]

theorem length_six_decomp {α : Type} (l : List α) (h : l.length = 6) :
    ∃ a b c x y z : α, l = [a, b, c, x, y, z] := by
  match l, h with
  | [a, b, c, x, y, z], _ => exact ⟨a, b, c, x, y, z, rfl⟩

/-- One NFL side as the claim describes it: `(seed, name, score)` pieces interpreted
through the seed digit filter, the name normalizers and integer score parsing.  This
spec-shaped definition follows the claim's wording; C7 compares it with the
source-derived `getGameFromNflBracket`. -/
def nflSideSpec (seed name score : String) : TeamResult :=
  teamResultInit (nflSeedVal seed) (nflName ntn npn d name) ((pyInt score).getD 0)

/-- The NFL bracket parse as the claim describes it: split on lines, discard every line
with fewer than 6 pipe-delimited pieces, and produce exactly one game per remaining
line, its two sides built from the trailing six pieces as
`(seed, name, score), (seed, name, score)`. -/
def nflGamesSpec (ls : List String) : List Game :=
  ls.filterMap (fun line =>
    let pieces := pySplitPipe (rstripPipe line)
    if pieces.length < 6 then none
    else
      match pieces.drop (pieces.length - 6) with
      | [a, b, c, x, y, z] =>
        some (nflSideSpec ntn npn d a b c, nflSideSpec ntn npn d x y z)
      | _ => none)

/-- C7 (per-line loop): provided every qualifying line's two score pieces parse as
integers (otherwise the source raises `ValueError`), the NFL loop produces exactly the
games of the claim-shaped `nflGamesSpec`. -/
theorem c7_nfl_games_aux (ls : List String)
    (h : ∀ line ∈ ls, 6 ≤ (pySplitPipe (rstripPipe line)).length →
      (pyInt ((pySplitPipe (rstripPipe line)).getD
        ((pySplitPipe (rstripPipe line)).length - 4) "")).isSome ∧
      (pyInt ((pySplitPipe (rstripPipe line)).getD
        ((pySplitPipe (rstripPipe line)).length - 1) "")).isSome) :
    nflLinesGames ntn npn d ls = .ok (nflGamesSpec ntn npn d ls) := by
  induction ls with
  | nil => rfl
  | cons line rest ih =>
    have hrest := fun l hl => h l (List.mem_cons_of_mem _ hl)
    rcases Nat.lt_or_ge (pySplitPipe (rstripPipe line)).length 6 with hlen | hlen
    · have e1 : nflLinesGames ntn npn d (line :: rest) = nflLinesGames ntn npn d rest := by
        conv_lhs => unfold nflLinesGames
        rw [if_pos hlen]
      have e2 : nflGamesSpec ntn npn d (line :: rest) = nflGamesSpec ntn npn d rest := by
        conv_lhs => unfold nflGamesSpec
        rw [List.filterMap_cons]
        dsimp only
        rw [if_pos hlen]
        rfl
      rw [e1, e2]
      exact ih hrest
    · have hdl : ((pySplitPipe (rstripPipe line)).drop
          ((pySplitPipe (rstripPipe line)).length - 6)).length = 6 := by
        rw [List.length_drop]
        omega
      obtain ⟨a, b, c, x, y, z, hdrop⟩ := length_six_decomp _ hdl
      obtain ⟨hc, hz⟩ := h line (List.mem_cons_self _ _) hlen
      have hcc : (pySplitPipe (rstripPipe line)).getD
          ((pySplitPipe (rstripPipe line)).length - 4) "" = c := by
        have e := getD_drop (pySplitPipe (rstripPipe line))
          ((pySplitPipe (rstripPipe line)).length - 6) 2 ""
        rw [hdrop] at e
        rw [show (pySplitPipe (rstripPipe line)).length - 4
            = (pySplitPipe (rstripPipe line)).length - 6 + 2 from by omega]
        exact e.symm
      have hzz : (pySplitPipe (rstripPipe line)).getD
          ((pySplitPipe (rstripPipe line)).length - 1) "" = z := by
        have e := getD_drop (pySplitPipe (rstripPipe line))
          ((pySplitPipe (rstripPipe line)).length - 6) 5 ""
        rw [hdrop] at e
        rw [show (pySplitPipe (rstripPipe line)).length - 1
            = (pySplitPipe (rstripPipe line)).length - 6 + 5 from by omega]
        exact e.symm
      rw [hcc] at hc
      rw [hzz] at hz
      obtain ⟨vc, hvc⟩ := Option.isSome_iff_exists.mp hc
      obtain ⟨vz, hvz⟩ := Option.isSome_iff_exists.mp hz
      unfold nflLinesGames
      rw [if_neg (Nat.not_lt.mpr hlen), hdrop]
      dsimp only
      unfold fromNflPieces
      rw [hvc, hvz, ih hrest]
      dsimp only
      unfold nflGamesSpec
      rw [List.filterMap_cons]
      dsimp only
      rw [if_neg (Nat.not_lt.mpr hlen), hdrop]
      dsimp only
      unfold nflSideSpec
      rw [hvc, hvz]
      rfl

/-- C7: `get_game_from_nfl_bracket` splits the bracket body on (whitespace-trimmed)
newlines, discards every line with fewer than 6 pipe-delimited pieces (after stripping
trailing pipes), and produces exactly one game per remaining line whose two sides are
built from the trailing six pieces as `(seed, name, score)` for the first side followed
by `(seed, name, score)` for the second.  The hypothesis requires the two score pieces
of every qualifying line to parse as integers, which is what the source's `int(score)`
demands. -/
theorem c7_nfl_bracket (body : String)
    (h : ∀ line ∈ splitNfl body, 6 ≤ (pySplitPipe (rstripPipe line)).length →
      (pyInt ((pySplitPipe (rstripPipe line)).getD
        ((pySplitPipe (rstripPipe line)).length - 4) "")).isSome ∧
      (pyInt ((pySplitPipe (rstripPipe line)).getD
        ((pySplitPipe (rstripPipe line)).length - 1) "")).isSome) :
    getGameFromNflBracket ntn npn d body = .ok (nflGamesSpec ntn npn d (splitNfl body)) :=
  c7_nfl_games_aux ntn npn d (splitNfl body) h

/-- Witness for C7 on a concrete two-line NFL bracket body (one qualifying line, one
discarded line). -/
theorem c7_nfl_bracket_witness :
    getGameFromNflBracket (fun s (_ : Unit) => s) (fun s _ => s) ()
        "x|1|Dal|30|2|Was|10\nshort|line"
      = .ok (nflGamesSpec (fun s (_ : Unit) => s) (fun s _ => s) ()
          (splitNfl "x|1|Dal|30|2|Was|10\nshort|line")) :=
  c7_nfl_bracket (fun s (_ : Unit) => s) (fun s _ => s) ()
    "x|1|Dal|30|2|Was|10\nshort|line" (by decide)

/-! ## C9: the `"missing data"` sentinel is unreachable -/

theorem mem_updData {md : List ((String × String) × TeamDataIn)} {k : String × String}
    {f : TeamDataIn → TeamDataIn} (Q : TeamDataIn → Prop)
    (hf : ∀ td, Q td → Q (f td)) (he : Q (f emptyTD))
    (hmd : ∀ e ∈ md, Q e.2) : ∀ e ∈ updData md k f, Q e.2 := by
  intro e he2
  unfold updData at he2
  split at he2
  · rcases List.mem_map.mp he2 with ⟨e0, he0, rfl⟩
    by_cases hk : e0.1 = k
    · rw [if_pos hk]
      exact hf _ (hmd e0 he0)
    · rw [if_neg hk]
      exact hmd e0 he0
  · rcases List.mem_append.mp he2 with h1 | h1
    · exact hmd e h1
    · rw [List.mem_singleton.mp h1]
      exact he

theorem processLine_scores_ne_nil {flags : Flags}
    {md md' : List ((String × String) × TeamDataIn)} {line : String}
    (h : processLine ntn npn d flags md line = .ok md')
    (hmd : ∀ e ∈ md, e.2.scores ≠ some []) : ∀ e ∈ md', e.2.scores ≠ some [] := by
  unfold processLine at h
  cases hf : findMatchRD line.data with
  | none => rw [hf] at h; cases h
  | some q =>
    rw [hf] at h
    obtain ⟨g1, k, g3, g4⟩ := q
    cases k with
    | team =>
      cases h
      exact mem_updData (fun td => td.scores ≠ some []) (fun td hq => hq)
        (by intro hc; cases hc) hmd
    | seed =>
      cases h
      exact mem_updData (fun td => td.scores ≠ some []) (fun td hq => hq)
        (by intro hc; cases hc) hmd
    | score =>
      cases h
      exact mem_updData (fun td => td.scores ≠ some []) (fun td _ => by simp)
        (by simp) hmd
    | scores =>
      cases h
      exact mem_updData (fun td => td.scores ≠ some []) (fun td _ => by simp)
        (by simp) hmd

theorem getMatchDataAux_scores_ne_nil {flags : Flags} :
    ∀ (lines : List String) (md md' : List ((String × String) × TeamDataIn)),
      getMatchDataAux ntn npn d flags md lines = .ok md' →
      (∀ e ∈ md, e.2.scores ≠ some []) → ∀ e ∈ md', e.2.scores ≠ some [] := by
  intro lines
  induction lines with
  | nil =>
    intro md md' h hmd
    cases h
    exact hmd
  | cons line rest ih =>
    intro md md' h hmd
    unfold getMatchDataAux at h
    cases hp : processLine ntn npn d flags md line with
    | error e => rw [hp] at h; cases h
    | ok md1 =>
      rw [hp] at h
      exact ih md1 md' h (processLine_scores_ne_nil ntn npn d hp hmd)

theorem resolveSides_scores {flags : Flags} :
    ∀ (md : List ((String × String) × TeamDataIn)) (res : List TeamDataR),
      resolveSides flags md = .ok res →
      ∀ td ∈ res, ∃ e ∈ md, td.scores = e.2.scores := by
  intro md
  induction md with
  | nil =>
    intro res h td htd
    cases h
    cases htd
  | cons e rest ih =>
    intro res h td htd
    unfold resolveSides at h
    cases hfx : fixSeeding e.1 e.2 flags with
    | error msg => rw [hfx] at h; cases h
    | ok s =>
      rw [hfx] at h
      cases hrs : resolveSides flags rest with
      | error msg => rw [hrs] at h; cases h
      | ok rs =>
        rw [hrs] at h
        cases h
        rcases List.mem_cons.mp htd with rfl | htd'
        · exact ⟨e, List.mem_cons_self _ _, rfl⟩
        · obtain ⟨e', he', heq⟩ := ih rs hrs td htd'
          exact ⟨e', List.mem_cons_of_mem _ he', heq⟩

theorem zipSeries_snd (res : List TeamDataR) (gs : List (List TeamResult)) (s : String)
    (h : zipSeries res = .ok (gs, s)) : s = "exhausted" := by
  unfold zipSeries at h
  split at h
  · cases h
  · cases h
    rfl

/-- C9: the `"missing data"` sentinel of `game_from_match` is unreachable.  Every side
accumulated by `get_match_data` has a nonempty score list whenever it has one at all;
hence once the first two gates pass (every side has a `scores` key),
`dict_has_match_data` holds for every side and `game_from_match` never returns the
`"missing data"` sentinel. -/
theorem c9_missing_data_unreachable (flags : Flags) (lines : List String)
    (md : List ((String × String) × TeamDataIn))
    (h : getMatchData ntn npn d flags lines = .ok md) :
    (∀ e ∈ md, e.2.scores ≠ some []) ∧
    (∀ res, resolveSides flags md = .ok res →
      res.any (fun td => td.scores.isNone) = false →
      res.all dictHasMatchData = true) ∧
    (∀ gs, gameFromMatch ntn npn d flags lines ≠ .ok (gs, "missing data")) := by
  have hinv : ∀ e ∈ md, e.2.scores ≠ some [] :=
    getMatchDataAux_scores_ne_nil ntn npn d lines [] md h (by intro e he; cases he)
  have hdict : ∀ res, resolveSides flags md = .ok res →
      res.any (fun td => td.scores.isNone) = false →
      res.all dictHasMatchData = true := by
    intro res hres hany
    rw [List.all_eq_true]
    intro td htd
    obtain ⟨e, hemem, hescores⟩ := resolveSides_scores md res hres td htd
    have hne := hinv e hemem
    cases hsc : td.scores with
    | none =>
      exfalso
      have hmem2 : td.scores.isNone = true := by rw [hsc]; rfl
      have hadv : res.any (fun td => td.scores.isNone) = true :=
        List.any_eq_true.mpr ⟨td, htd, hmem2⟩
      rw [hany] at hadv
      cases hadv
    | some l =>
      have hlne : l ≠ [] := by
        intro hnil
        apply hne
        rw [← hescores, hsc, hnil]
      unfold dictHasMatchData
      rw [hsc]
      simp [hlne]
  refine ⟨hinv, hdict, ?_⟩
  intro gs hcontra
  unfold gameFromMatch at hcontra
  rw [h] at hcontra
  dsimp only at hcontra
  unfold gameFromMatchData at hcontra
  cases hres : resolveSides flags md with
  | error e => rw [hres] at hcontra; cases hcontra
  | ok res =>
    rw [hres] at hcontra
    dsimp only at hcontra
    unfold gamesOfResolved at hcontra
    by_cases h1 : res.all (fun td => td.scores.isNone) = true
    · rw [if_pos h1] at hcontra
      simp at hcontra
    · rw [if_neg h1] at hcontra
      by_cases h2 : res.any (fun td => td.scores.isNone) = true
      · rw [if_pos h2] at hcontra
        simp at hcontra
      · rw [if_neg h2] at hcontra
        have hanyf : res.any (fun td => td.scores.isNone) = false := by
          cases hb : res.any (fun td => td.scores.isNone)
          · rfl
          · exact absurd hb h2
        have hall := hdict res hres hanyf
        rw [if_neg (by rw [hall]; simp)] at hcontra
        by_cases h4 : (res.map (fun td => (td.scores.getD []).length)).dedup.length ≠ 1
        · rw [if_pos h4] at hcontra
          exact Except.noConfusion hcontra
        · rw [if_neg h4] at hcontra
          by_cases h5 : (flags.multi_elim
              && decide ((res.map (fun td => (td.scores.getD []).length)).dedup = [1])
              && decide (maxHeadScore res < 5)) = true
          · rw [if_pos h5] at hcontra
            split at hcontra
            · exact absurd (zipSeries_snd _ _ _ hcontra) (by decide)
            · exact Except.noConfusion hcontra
          · rw [if_neg h5] at hcontra
            exact absurd (zipSeries_snd _ _ _ hcontra) (by decide)

/-- Witness for C9 at a concrete single-side match with one score. -/
theorem c9_missing_data_unreachable_witness :
    gameFromMatch (fun s (_ : Unit) => s) (fun s _ => s) () ⟨false, "", -1, false, false⟩
      ["RD1-team1=A", "RD1-score1=3"] ≠ .ok ([], "missing data") :=
  (c9_missing_data_unreachable (fun s (_ : Unit) => s) (fun s _ => s) ()
    ⟨false, "", -1, false, false⟩ ["RD1-team1=A", "RD1-score1=3"]
    [(("1", "1"), ⟨some "A", none, some [3]⟩)] (by rfl)).2.2 []

end Bracket
